import Mathlib

/-!
# Verification of `target_azureblobstorage.py`

A shallow embedding of the core of the Singer target `target-azureblobstorage`
(file `target_azureblobstorage.py`) and proofs about it.

Modelling conventions:

* JSON values (the results of `json.loads`) are modelled by the inductive type
  `JVal`; a parsed JSON object is an association list with string keys in
  insertion order and, as produced by `json.loads`, duplicate-free keys.
* Python `dict`s are modelled as association lists in insertion order; key
  update keeps the key's position, new keys are appended (`alSet`), matching
  CPython's ordered-dict semantics.
* The input to `persist_lines` is the list of already-parsed message objects
  (JSON decoding errors are outside every property treated here).
* The external `jsonschema.Draft4Validator` is modelled by a parameter
  `validate : JVal → JVal → VResult` giving, for a stored schema and a record,
  the outcome of `validator.validate(record)`: success, a `ValidationError`
  with message string, or any other exception.
* The filesystem (the staging directory `~/<container>`) is modelled by the
  flag `dirExists` plus a map from file name to the list of rows handed to
  `csv.writer.writerow` for that file (header cells, which Python passes as
  strings, are embedded as `JVal.str`).
* The blob store (one fixed container) is modelled by a map from blob name to
  the pair (content type, uploaded rows); `create_blob_from_path` overwrites.
* A raised Python exception is modelled by `Except.error (e, s)` where `s` is
  the mutable state at the moment of the raise (Python mutations performed
  before the raise are visible in `s`).
-/

/-- A JSON value as produced by `json.loads`. Numbers are modelled as
integers; no property below depends on non-integer numerics. -/
inductive JVal : Type where
  | null : JVal
  | bool : Bool → JVal
  | num : Int → JVal
  | str : String → JVal
  | arr : List JVal → JVal
  | obj : List (String × JVal) → JVal

/-- A parsed JSON object: fields in insertion order. -/
abbrev Obj := List (String × JVal)

mutual
/-- Structural equality of JSON values (Python `==` on parsed JSON). -/
def jvalBeq : JVal → JVal → Bool
  | .null, .null => true
  | .bool a, .bool b => a == b
  | .num a, .num b => a == b
  | .str a, .str b => a == b
  | .arr xs, .arr ys => jarrBeq xs ys
  | .obj fs, .obj gs => jobjBeq fs gs
  | _, _ => false

/-- Pointwise equality of JSON arrays. -/
def jarrBeq : List JVal → List JVal → Bool
  | [], [] => true
  | x :: xs, y :: ys => jvalBeq x y && jarrBeq xs ys
  | _, _ => false

/-- Pointwise equality of JSON objects. -/
def jobjBeq : Obj → Obj → Bool
  | [], [] => true
  | (k, v) :: fs, (l, w) :: gs => k == l && jvalBeq v w && jobjBeq fs gs
  | _, _ => false
end

instance : BEq JVal := ⟨jvalBeq⟩

/-- Python `d[key]` lookup on an ordered dict modelled as an association
list: the value of the first (and, for a real dict, only) binding of `key`. -/
def alGet {κ α : Type} [BEq κ] : List (κ × α) → κ → Option α
  | [], _ => none
  | (k, v) :: rest, key => if k == key then some v else alGet rest key

/-- Python `key in d` membership test on a dict. -/
def alHas {κ α : Type} [BEq κ] (m : List (κ × α)) (k : κ) : Bool :=
  (alGet m k).isSome

/-- Python `d[key] = v` assignment on an ordered dict: an existing key keeps
its position and gets the new value, a new key is appended. -/
def alSet {κ α : Type} [BEq κ] (m : List (κ × α)) (k : κ) (v : α) : List (κ × α) :=
  if alHas m k then m.map (fun p => if p.1 == k then (k, v) else p) else m ++ [(k, v)]

/-- Python `dict(items)`: fold the item list into an ordered dict (first
occurrence fixes the position, the last value for a key wins). -/
def pyDict (items : List (String × JVal)) : Obj :=
  items.foldl (fun acc kv => alSet acc kv.1 kv.2) []

/-- Python truthiness of a JSON value (`bool(v)`). -/
def pyTruthy : JVal → Bool
  | .null => false
  | .bool b => b
  | .num n => n != 0
  | .str s => s ≠ ""
  | .arr xs => !xs.isEmpty
  | .obj fs => !fs.isEmpty

mutual
/-- Python `repr` of a parsed JSON value (lists and dicts render their
elements with `repr`; `str(x)` on a list equals `repr(x)`). -/
def pyRepr : JVal → String
  | .null => "None"
  | .bool b => if b then "True" else "False"
  | .num n => toString n
  | .str s => "'" ++ s ++ "'"
  | .arr xs => "[" ++ pyReprList xs ++ "]"
  | .obj fs => "\x7b" ++ pyReprObj fs ++ "\x7d"

/-- Comma-separated `repr`s of the elements of a list. -/
def pyReprList : List JVal → String
  | [] => ""
  | [x] => pyRepr x
  | x :: x2 :: rest => pyRepr x ++ ", " ++ pyReprList (x2 :: rest)

/-- Comma-separated `'key': repr(value)` entries of a dict. -/
def pyReprObj : Obj → String
  | [] => ""
  | [(k, v)] => "'" ++ k ++ "': " ++ pyRepr v
  | (k, v) :: p :: rest => "'" ++ k ++ "': " ++ pyRepr v ++ ", " ++ pyReprObj (p :: rest)
end

/-- Does the first list occur as a prefix of the second? -/
def listStartsWith : List Char → List Char → Bool
  | [], _ => true
  | _ :: _, [] => false
  | a :: as, b :: bs => a == b && listStartsWith as bs

/-- Does the first list occur as a contiguous sublist of the second? -/
def listContainsSub (needle : List Char) : List Char → Bool
  | [] => needle.isEmpty
  | c :: rest => listStartsWith needle (c :: rest) || listContainsSub needle rest

/-- Python `needle in hay` substring containment on strings. -/
def pyIn (needle hay : String) : Bool :=
  listContainsSub needle.data hay.data

mutual
/-- One iteration of the loop body of `flatten` in the source: the items
contributed by the field `(key ↦ v)`.  A nested mapping contributes
`flatten(v, new_key, sep).items()` (note the intermediate `dict(...)` the
recursive call performs); a list value contributes `str(v)`; every other
value passes through unchanged. -/
def flattenVal (key : String) (sep : String) : JVal → List (String × JVal)
  | JVal.obj fs => pyDict (flattenObj fs key sep)
  | JVal.arr xs => [(key, JVal.str (pyRepr (JVal.arr xs)))]
  | v => [(key, v)]

/-- The item list `items` accumulated by `flatten`'s loop over `d.items()`:
`new_key = parent_key + sep + k if parent_key else k`. -/
def flattenObj : Obj → String → String → List (String × JVal)
  | [], _, _ => []
  | (k, v) :: rest, parent_key, sep =>
    flattenVal (if parent_key ≠ "" then parent_key ++ sep ++ k else k) sep v
      ++ flattenObj rest parent_key sep
end

/-- The function `flatten(d, parent_key='', sep='__')` from the source: accumulate the
items of each field (recursing into nested mappings) and build `dict(items)`. -/
def flatten (d : Obj) (parent_key : String := "") (sep : String := "__") : Obj :=
  pyDict (flattenObj d parent_key sep)

/-- Outcome of `Draft4Validator(schema).validate(record)` (the external
`jsonschema` library): success, a `jsonschema.ValidationError` carrying the
message `str(e)`, or an exception of any other class. -/
inductive VResult : Type where
  | ok : VResult
  | validationError : String → VResult
  | otherError : VResult

/-- A row handed to `csv.writer.writerow`. -/
abbrev Row := List JVal

/-- The mutable state of one `persist_lines` run, together with the modelled
environment (staging directory, blob container). Fields `state`, `schemas`,
`key_properties`, `validators` and `filename` are the Python locals of the
same names (`filename` is `none` while the local is still unbound); `dirExists`
models `os.path.exists(parent_dir)`; `files` maps a staged file name to the
rows written to it so far; `blobs` maps a blob name to its content type and
uploaded rows; `errorLog` collects the `logger.error` messages. -/
structure PState where
  state : Option JVal
  schemas : List (JVal × JVal)
  key_properties : List (JVal × JVal)
  validators : List (JVal × JVal)
  filename : Option String
  dirExists : Bool
  files : List (String × List Row)
  blobs : List (String × (String × List Row))
  errorLog : List String

/-- A raised Python exception, by the site that raises it. -/
inductive PError : Type where
  | missingType : PError
  | missingStream : PError
  | noSchemaForStream : JVal → PError
  | keyError : String → PError
  | typeError : PError
  | validatorError : PError
  | missingKeyProperties : PError
  | unknownType : JVal → PError
  | unboundFilename : PError

/-- The state `persist_lines` starts from: `state = None`, empty registries,
`filename` unbound, and whatever staging directory and blob container the
environment already holds. -/
def initState (dirExists : Bool) (files : List (String × List Row))
    (blobs : List (String × (String × List Row))) : PState :=
  { state := none, schemas := [], key_properties := [], validators := [],
    filename := none, dirExists := dirExists, files := files, blobs := blobs,
    errorLog := [] }

/-- The tail of the RECORD branch, from the `flattened_record = flatten(...)`
call (line 90) on: flattening requires the record to be a mapping (its result
is otherwise unused); `filename = o['stream'] + '.csv'` requires a string
stream; the staging directory is created if absent; a missing staging file is
created with a header row `list(record.keys())`; then
`[record[key] for key in record]` — the record's values in its own key
iteration order — is appended, and finally `state = None`. -/
def recordContinue (s : PState) (stream record : JVal) :
    Except (PError × PState) PState :=
  match record with
  | JVal.obj fields =>
    match stream with
    | JVal.str sname =>
      let filename := sname ++ ".csv"
      let s1 : PState := { s with dirExists := true }
      let s2 : PState :=
        if alHas s1.files filename then s1
        else { s1 with
               files := alSet s1.files filename [fields.map (fun kv => JVal.str kv.1)] }
      let row : Row := fields.map (fun kv => kv.2)
      let s3 : PState :=
        { s2 with files := alSet s2.files filename ((alGet s2.files filename).getD [] ++ [row]) }
      Except.ok { s3 with state := none, filename := some filename }
    | _ => Except.error (PError.typeError, s)
  | _ => Except.error (PError.typeError, s)

/-- The RECORD branch of `persist_lines` (lines 69–120): require `stream`,
require a previously declared schema, read `o['record']`, run the stored
validator — a `ValidationError` is caught, logged when its message contains
`"is not a multiple of 0.01"`, and in either case swallowed, while any other
exception propagates — then continue with `recordContinue`. -/
def recordStep (validate : JVal → JVal → VResult) (s : PState) (o : Obj) :
    Except (PError × PState) PState :=
  match alGet o "stream" with
  | none => Except.error (PError.missingStream, s)
  | some stream =>
    if alHas s.schemas stream then
      match alGet o "record" with
      | none => Except.error (PError.keyError "record", s)
      | some record =>
        match alGet s.validators stream with
        | none => Except.error (PError.keyError "validator", s)
        | some vschema =>
          match validate vschema record with
          | VResult.ok => recordContinue s stream record
          | VResult.validationError msg =>
            recordContinue
              (if pyIn "is not a multiple of 0.01" msg then
                { s with errorLog := s.errorLog ++ ["Validation error:" ++ msg] }
              else s)
              stream record
          | VResult.otherError => Except.error (PError.validatorError, s)
    else Except.error (PError.noSchemaForStream stream, s)

/-- The upload loop of the STATE branch (lines 127–138): for every file of
the staging directory, `create_blob_from_path(container, filename, path,
content_type='application/CSV')` followed by `os.remove(path)`.  The loop
body reads the local `filename` set by the last RECORD branch — if no RECORD
was processed in this run and the directory is non-empty, that read raises
`UnboundLocalError`; an empty directory never enters the loop body. -/
def flushFiles (s : PState) : Except (PError × PState) PState :=
  match s.files with
  | [] => Except.ok s
  | _ =>
    match s.filename with
    | none => Except.error (PError.unboundFilename, s)
    | some fname =>
      Except.ok { s with
        blobs := s.files.foldl (fun bs f => alSet bs fname ("application/CSV", f.2)) s.blobs,
        files := [] }

/-- The STATE branch of `persist_lines` (lines 121–138): `o['value']` is read
unconditionally (for the debug log and the assignment `state = o['value']`),
then `state['currently_syncing']` is read unconditionally; when the latter is
falsy and the staging directory exists, every staged file is uploaded and
removed. -/
def stateStep (s : PState) (o : Obj) : Except (PError × PState) PState :=
  match alGet o "value" with
  | none => Except.error (PError.keyError "value", s)
  | some v =>
    let s1 : PState := { s with state := some v }
    match v with
    | JVal.obj fields =>
      match alGet fields "currently_syncing" with
      | none => Except.error (PError.keyError "currently_syncing", s1)
      | some cs =>
        if !pyTruthy cs && s1.dirExists then flushFiles s1 else Except.ok s1
    | _ => Except.error (PError.typeError, s1)

/-- The SCHEMA branch of `persist_lines` (lines 140–149): require `stream`;
store `o['schema']` in `schemas` and its validator in `validators`; only then
check `key_properties`, raising if absent, and store it otherwise. -/
def schemaStep (s : PState) (o : Obj) : Except (PError × PState) PState :=
  match alGet o "stream" with
  | none => Except.error (PError.missingStream, s)
  | some stream =>
    match alGet o "schema" with
    | none => Except.error (PError.keyError "schema", s)
    | some schema =>
      let s1 : PState := { s with
        schemas := alSet s.schemas stream schema,
        validators := alSet s.validators stream schema }
      match alGet o "key_properties" with
      | none => Except.error (PError.missingKeyProperties, s1)
      | some kp =>
        Except.ok { s1 with key_properties := alSet s1.key_properties stream kp }

/-- Processing of one parsed input message by the loop body of
`persist_lines` (lines 55–155): dispatch on `o['type']` — missing `type` and
unrecognized types raise; ACTIVATE_VERSION only logs. -/
def step (validate : JVal → JVal → VResult) (s : PState) (o : Obj) :
    Except (PError × PState) PState :=
  match alGet o "type" with
  | none => Except.error (PError.missingType, s)
  | some t =>
    if t == JVal.str "RECORD" then recordStep validate s o
    else if t == JVal.str "STATE" then stateStep s o
    else if t == JVal.str "SCHEMA" then schemaStep s o
    else if t == JVal.str "ACTIVATE_VERSION" then Except.ok s
    else Except.error (PError.unknownType t, s)

/-- The processing loop of `persist_lines` over the parsed input messages,
threading the run's state; the first raised exception aborts the run. -/
def persistLoop (validate : JVal → JVal → VResult) (s : PState) :
    List Obj → Except (PError × PState) PState
  | [] => Except.ok s
  | o :: rest =>
    match step validate s o with
    | Except.ok s' => persistLoop validate s' rest
    | Except.error e => Except.error e

/-- The function `persist_lines` (lines 46–157): run the loop from the initial state and
return the final value of the local `state` (the loop's `return state`). -/
def persist_lines (validate : JVal → JVal → VResult) (dirExists : Bool)
    (files : List (String × List Row)) (blobs : List (String × (String × List Row)))
    (lines : List Obj) : Except (PError × PState) (Option JVal) :=
  (persistLoop validate (initState dirExists files blobs) lines).map (fun s => s.state)

/-- JSON string escaping as performed by `json.dumps` on the characters any
property here exercises (quote and backslash; control-character escapes are
not modelled, no input below contains one). -/
def jsonEscape (s : String) : String :=
  String.mk (s.data.foldr
    (fun c acc =>
      if c = '"' then '\\' :: '"' :: acc
      else if c = '\\' then '\\' :: '\\' :: acc
      else c :: acc) [])

mutual
/-- Python `json.dumps` of a parsed JSON value, with CPython's default
separators. -/
def jsonDumps : JVal → String
  | .null => "null"
  | .bool b => if b then "true" else "false"
  | .num n => toString n
  | .str s => "\"" ++ jsonEscape s ++ "\""
  | .arr xs => "[" ++ jsonDumpsList xs ++ "]"
  | .obj fs => "\x7b" ++ jsonDumpsObj fs ++ "\x7d"

/-- Comma-separated serializations of the elements of a JSON array. -/
def jsonDumpsList : List JVal → String
  | [] => ""
  | [x] => jsonDumps x
  | x :: x2 :: rest => jsonDumps x ++ ", " ++ jsonDumpsList (x2 :: rest)

/-- Comma-separated `"key": value` entries of a JSON object. -/
def jsonDumpsObj : Obj → String
  | [] => ""
  | [(k, v)] => "\"" ++ jsonEscape k ++ "\": " ++ jsonDumps v
  | (k, v) :: p :: rest =>
    "\"" ++ jsonEscape k ++ "\": " ++ jsonDumps v ++ ", " ++ jsonDumpsObj (p :: rest)
end

/-- The function `emit_state` (lines 27–32): when `state` is not `None`,
write `json.dumps(state)` and a newline to stdout. Modelled as the optional
line written. -/
def emit_state (state : Option JVal) : Option String :=
  state.map (fun v => jsonDumps v)

/-- Specification-side summary of how one processed message updates the
`state` local of `persist_lines`, read off the source: a RECORD message ends
with `state = None` (line 120), a STATE message performs
`state = o['value']` (line 123), and every other message type leaves `state`
alone.  Folding this rule over the input characterizes the loop's return
value for runs that finish without an exception. -/
def ckptUpdate (c : Option JVal) (o : Obj) : Option JVal :=
  match alGet o "type" with
  | none => c
  | some t =>
    if t == JVal.str "RECORD" then none
    else if t == JVal.str "STATE" then alGet o "value"
    else c

/-- Is a JSON value a mapping? (`isinstance(v, collections.abc.MutableMapping)`). -/
def isMapping : JVal → Bool
  | .obj _ => true
  | _ => false

/-- Is a JSON value neither a mapping nor a list, i.e. a scalar that
`flatten` passes through unchanged? -/
def isScalar : JVal → Bool
  | .obj _ => false
  | .arr _ => false
  | _ => true

/-- The conversion `flatten` applies to a leaf value:
`str(v) if type(v) is list else v`. -/
def convLeaf : JVal → JVal
  | .arr xs => .str (pyRepr (.arr xs))
  | v => v

/-- Test fixture: a well-formed SCHEMA message. -/
def schemaMsg (stream : String) (schema : JVal) (kp : JVal) : Obj :=
  [("type", JVal.str "SCHEMA"), ("stream", JVal.str stream),
   ("schema", schema), ("key_properties", kp)]

/-- Test fixture: a RECORD message. -/
def recordMsg (stream : String) (record : JVal) : Obj :=
  [("type", JVal.str "RECORD"), ("stream", JVal.str stream), ("record", record)]

/-- Test fixture: a STATE message carrying the given checkpoint value. -/
def stateMsg (v : JVal) : Obj :=
  [("type", JVal.str "STATE"), ("value", v)]

/-- Test fixture: a checkpoint value with the given `currently_syncing` flag. -/
def syncFlag (b : Bool) : JVal :=
  JVal.obj [("currently_syncing", JVal.bool b)]

/-- Test fixture: a validator behavior that accepts every record. -/
def acceptAll : JVal → JVal → VResult := fun _ _ => VResult.ok

theorem alGet_eq_none_of_not_mem {κ α : Type} [BEq κ] [LawfulBEq κ]
    (m : List (κ × α)) (k : κ) (h : k ∉ m.map Prod.fst) : alGet m k = none := by
  induction m with
  | nil => rfl
  | cons p rest ih =>
    simp only [List.map_cons, List.mem_cons] at h
    push_neg at h
    obtain ⟨h1, h2⟩ := h
    have hbeq : (p.1 == k) = false := by
      cases hb : p.1 == k with
      | false => rfl
      | true => exact absurd (eq_of_beq hb) (fun he => h1 he.symm)
    obtain ⟨k1, v1⟩ := p
    simp only [alGet, hbeq, Bool.false_eq_true, if_false]
    exact ih h2

theorem alHas_eq_false_of_not_mem {κ α : Type} [BEq κ] [LawfulBEq κ]
    (m : List (κ × α)) (k : κ) (h : k ∉ m.map Prod.fst) : alHas m k = false := by
  simp [alHas, alGet_eq_none_of_not_mem m k h]

theorem alSet_of_not_mem {κ α : Type} [BEq κ] [LawfulBEq κ]
    (m : List (κ × α)) (k : κ) (v : α) (h : k ∉ m.map Prod.fst) :
    alSet m k v = m ++ [(k, v)] := by
  simp [alSet, alHas_eq_false_of_not_mem m k h]

theorem alGet_map_replace {κ α : Type} [BEq κ] [LawfulBEq κ]
    (m : List (κ × α)) (k : κ) (v : α) (h : alHas m k = true) :
    alGet (m.map (fun p => if p.1 == k then (k, v) else p)) k = some v := by
  induction m with
  | nil => simp [alHas, alGet] at h
  | cons p rest ih =>
    obtain ⟨k1, v1⟩ := p
    by_cases hbeq : (k1 == k) = true
    · simp only [List.map_cons]
      rw [if_pos hbeq]
      simp [alGet]
    · have hbeq' : (k1 == k) = false := by
        cases hb : k1 == k with
        | false => rfl
        | true => exact absurd hb hbeq
      have h' : alHas rest k = true := by
        simpa [alHas, alGet, hbeq'] using h
      simp only [List.map_cons]
      rw [if_neg (by simp [hbeq'])]
      simp only [alGet, hbeq', Bool.false_eq_true, if_false]
      exact ih h'

theorem alGet_append_single {κ α : Type} [BEq κ] [LawfulBEq κ] (k : κ) (v : α) :
    ∀ m : List (κ × α), alHas m k = false → alGet (m ++ [(k, v)]) k = some v := by
  intro m
  induction m with
  | nil => intro _; simp [alGet]
  | cons p rest ih =>
    intro h
    obtain ⟨k1, v1⟩ := p
    have hbeq : (k1 == k) = false := by
      cases hb : k1 == k with
      | false => rfl
      | true => simp [alHas, alGet, hb] at h
    have hrest : alHas rest k = false := by
      simpa [alHas, alGet, hbeq] using h
    simp only [List.cons_append, alGet, hbeq, Bool.false_eq_true, if_false]
    exact ih hrest

theorem alGet_alSet {κ α : Type} [BEq κ] [LawfulBEq κ]
    (m : List (κ × α)) (k : κ) (v : α) : alGet (alSet m k v) k = some v := by
  by_cases h : alHas m k = true
  · simp only [alSet, h, if_true]
    exact alGet_map_replace m k v h
  · have h' : alHas m k = false := by
      cases hb : alHas m k with
      | false => rfl
      | true => exact absurd hb h
    simp only [alSet, h', Bool.false_eq_true, if_false]
    exact alGet_append_single k v m h'

theorem alHas_of_mem {κ α : Type} [BEq κ] [LawfulBEq κ] :
    ∀ (m : List (κ × α)) (k : κ), k ∈ m.map Prod.fst → alHas m k = true := by
  intro m k
  induction m with
  | nil => intro h; simp at h
  | cons p rest ih =>
    intro h
    obtain ⟨k1, v1⟩ := p
    simp only [List.map_cons, List.mem_cons] at h
    by_cases hbeq : (k1 == k) = true
    · simp [alHas, alGet, hbeq]
    · have hbeq' : (k1 == k) = false := by
        cases hb : k1 == k with
        | false => rfl
        | true => exact absurd hb hbeq
      have hk : k ∈ rest.map Prod.fst := by
        rcases h with h | h
        · exact absurd (by simp [h]) hbeq
        · exact h
      simpa [alHas, alGet, hbeq'] using ih hk

theorem map_replace_keys {κ α : Type} [BEq κ] [LawfulBEq κ] (k : κ) (v : α) :
    ∀ m : List (κ × α),
      (m.map (fun p => if p.1 == k then (k, v) else p)).map Prod.fst = m.map Prod.fst := by
  intro m
  induction m with
  | nil => rfl
  | cons p rest ih =>
    obtain ⟨k1, v1⟩ := p
    by_cases hbeq : (k1 == k) = true
    · simp only [List.map_cons]
      rw [if_pos hbeq]
      simp [eq_of_beq hbeq, ih]
    · have hbeq' : (k1 == k) = false := by
        cases hb : k1 == k with
        | false => rfl
        | true => exact absurd hb hbeq
      simp only [List.map_cons]
      rw [if_neg (by simp [hbeq'])]
      simp [ih]

theorem alSet_keys_of_has {κ α : Type} [BEq κ] [LawfulBEq κ]
    (m : List (κ × α)) (k : κ) (v : α) (h : alHas m k = true) :
    (alSet m k v).map Prod.fst = m.map Prod.fst := by
  simp only [alSet, h, if_true]
  exact map_replace_keys k v m

theorem alSet_keys_of_not {κ α : Type} [BEq κ]
    (m : List (κ × α)) (k : κ) (v : α) (h : alHas m k = false) :
    (alSet m k v).map Prod.fst = m.map Prod.fst ++ [k] := by
  simp [alSet, h]

theorem foldl_alSet_keys_nodup :
    ∀ (items : List (String × JVal)) (acc : Obj), (acc.map Prod.fst).Nodup →
      ((items.foldl (fun a kv => alSet a kv.1 kv.2) acc).map Prod.fst).Nodup := by
  intro items
  induction items with
  | nil => intro acc h; simpa using h
  | cons kv rest ih =>
    intro acc h
    simp only [List.foldl_cons]
    apply ih
    by_cases hk : alHas acc kv.1 = true
    · rw [alSet_keys_of_has _ _ _ hk]
      exact h
    · have hk' : alHas acc kv.1 = false := by
        cases hb : alHas acc kv.1 with
        | false => rfl
        | true => exact absurd hb hk
      rw [alSet_keys_of_not _ _ _ hk']
      have hmem : kv.1 ∉ acc.map Prod.fst := by
        intro hmem
        exact hk (alHas_of_mem acc kv.1 hmem)
      simp [List.nodup_append, h, hmem]

theorem pyDict_keys_nodup (items : List (String × JVal)) :
    ((pyDict items).map Prod.fst).Nodup := by
  exact foldl_alSet_keys_nodup items [] (by simp)

theorem pyDict_of_nodup :
    ∀ (items : List (String × JVal)) (acc : Obj),
      ((acc ++ items).map Prod.fst).Nodup →
      items.foldl (fun a kv => alSet a kv.1 kv.2) acc = acc ++ items := by
  intro items
  induction items with
  | nil => intro acc _; simp
  | cons kv rest ih =>
    intro acc h
    obtain ⟨k, v⟩ := kv
    have hmem : k ∉ acc.map Prod.fst := by
      simp only [List.map_append, List.nodup_append] at h
      intro hk
      exact h.2.2 hk (by simp)
    have hset : alSet acc k v = acc ++ [(k, v)] := by
      simp [alSet, alHas_eq_false_of_not_mem acc k hmem]
    simp only [List.foldl_cons, hset]
    have h' : (((acc ++ [(k, v)]) ++ rest).map Prod.fst).Nodup := by
      simpa [List.append_assoc] using h
    rw [ih (acc ++ [(k, v)]) h']
    simp

theorem pyDict_nodup_id (items : List (String × JVal))
    (h : (items.map Prod.fst).Nodup) : pyDict items = items := by
  have := pyDict_of_nodup items [] (by simpa using h)
  simpa [pyDict] using this

theorem alSet_all (P : JVal → Bool) {κ : Type} [BEq κ] (m : List (κ × JVal)) (k : κ)
    (v : JVal) (hm : m.all (fun kv => P kv.2) = true) (hv : P v = true) :
    (alSet m k v).all (fun kv => P kv.2) = true := by
  simp only [alSet]
  split
  · simp only [List.all_map, List.all_eq_true] at hm ⊢
    intro p hp
    by_cases hbeq : (p.1 == k) = true
    · simpa [Function.comp, hbeq] using hv
    · have hbeq' : (p.1 == k) = false := by
        cases hb : p.1 == k with
        | false => rfl
        | true => exact absurd hb hbeq
      simpa [Function.comp, hbeq'] using hm p hp
  · simp only [List.all_append, Bool.and_eq_true]
    exact ⟨hm, by simp [hv]⟩

theorem pyDict_all (P : JVal → Bool) :
    ∀ (items : List (String × JVal)) (acc : Obj),
      acc.all (fun kv => P kv.2) = true → items.all (fun kv => P kv.2) = true →
      ((items.foldl (fun a kv => alSet a kv.1 kv.2) acc)).all (fun kv => P kv.2) = true := by
  intro items
  induction items with
  | nil => intro acc h _; simpa using h
  | cons kv rest ih =>
    intro acc hacc hitems
    simp only [List.all_cons, Bool.and_eq_true] at hitems
    simp only [List.foldl_cons]
    exact ih (alSet acc kv.1 kv.2) (alSet_all P acc kv.1 kv.2 hacc hitems.1) hitems.2

theorem flatten_scalar_aux :
    (∀ (key sep : String) (a : JVal),
        (flattenVal key sep a).all (fun kv => isScalar kv.2) = true)
    ∧ ∀ (d : Obj) (p sep : String),
        (flattenObj d p sep).all (fun kv => isScalar kv.2) = true := by
  apply flattenVal.mutual_induct
    (fun key sep v => (flattenVal key sep v).all (fun kv => isScalar kv.2) = true)
    (fun d p sep => (flattenObj d p sep).all (fun kv => isScalar kv.2) = true)
  · intro key sep fs ih
    simpa [flattenVal, pyDict] using
      pyDict_all (fun v => isScalar v) (flattenObj fs key sep) [] rfl ih
  · intro key sep xs
    simp [flattenVal, isScalar]
  · intro key sep v h1 h2
    cases v with
    | obj fs => exact (h1 fs rfl).elim
    | arr xs => exact (h2 xs rfl).elim
    | null => simp [flattenVal, isScalar]
    | bool b => simp [flattenVal, isScalar]
    | num n => simp [flattenVal, isScalar]
    | str s => simp [flattenVal, isScalar]
  · intro p sep
    simp [flattenObj]
  · intro k v rest parent_key sep ih1 ih2
    simp only [flattenObj, List.all_append, Bool.and_eq_true]
    exact ⟨ih1, ih2⟩

theorem scalar_all_not_mapping :
    ∀ d : Obj, d.all (fun kv => isScalar kv.2) = true →
      d.all (fun kv => !isMapping kv.2) = true := by
  intro d
  induction d with
  | nil => intro _; rfl
  | cons kv rest ih =>
    intro h
    simp only [List.all_cons, Bool.and_eq_true] at h ⊢
    refine ⟨?_, ih h.2⟩
    obtain ⟨k, v⟩ := kv
    have := h.1
    cases v <;> simp_all [isScalar, isMapping]

theorem map_pair_keys (f : JVal → JVal) :
    ∀ d : Obj, (d.map (fun kv => (kv.1, f kv.2))).map Prod.fst = d.map Prod.fst := by
  intro d
  induction d with
  | nil => rfl
  | cons kv rest ih => simp [ih]

theorem map_convLeaf_id :
    ∀ d : Obj, d.all (fun kv => isScalar kv.2) = true →
      d.map (fun kv => (kv.1, convLeaf kv.2)) = d := by
  intro d
  induction d with
  | nil => intro _; rfl
  | cons kv rest ih =>
    intro h
    simp only [List.all_cons, Bool.and_eq_true] at h
    have hkv : (kv.1, convLeaf kv.2) = kv := by
      obtain ⟨k, v⟩ := kv
      cases v <;> simp_all [convLeaf, isScalar]
    simp [hkv, ih h.2]

theorem flattenObj_flat (sep : String) :
    ∀ d : Obj, d.all (fun kv => !isMapping kv.2) = true →
      flattenObj d "" sep = d.map (fun kv => (kv.1, convLeaf kv.2)) := by
  intro d
  induction d with
  | nil => intro _; rfl
  | cons kv rest ih =>
    intro h
    obtain ⟨k, v⟩ := kv
    simp only [List.all_cons, Bool.and_eq_true] at h
    have hv : flattenVal k sep v = [(k, convLeaf v)] := by
      cases v <;> simp_all [flattenVal, convLeaf, isMapping]
    simp [flattenObj, hv, ih h.2]

theorem flatten_flat (d : Obj) (h1 : d.all (fun kv => !isMapping kv.2) = true)
    (h2 : (d.map Prod.fst).Nodup) :
    flatten d = d.map (fun kv => (kv.1, convLeaf kv.2)) := by
  unfold flatten
  rw [flattenObj_flat "__" d h1]
  apply pyDict_nodup_id
  rw [map_pair_keys]
  exact h2

theorem flatten_values_scalar (d : Obj) :
    (flatten d).all (fun kv => isScalar kv.2) = true := by
  simpa [flatten, pyDict] using
    pyDict_all (fun v => isScalar v) (flattenObj d "" "__") [] rfl
      (flatten_scalar_aux.2 d "" "__")

theorem flatten_keys_nodup (d : Obj) : ((flatten d).map Prod.fst).Nodup := by
  simpa [flatten] using pyDict_keys_nodup (flattenObj d "" "__")

theorem flatten_idem (d : Obj) : flatten (flatten d) = flatten d := by
  have hsc := flatten_values_scalar d
  rw [flatten_flat (flatten d) (scalar_all_not_mapping _ hsc) (flatten_keys_nodup d)]
  exact map_convLeaf_id _ hsc

theorem jval_beq_true_iff : ∀ a b : JVal, jvalBeq a b = true ↔ a = b := by
  apply jvalBeq.induct (fun a b => jvalBeq a b = true ↔ a = b)
    (fun fs gs => jobjBeq fs gs = true ↔ fs = gs)
    (fun xs ys => jarrBeq xs ys = true ↔ xs = ys)
  case case1 => simp [jvalBeq]
  case case2 => intro a b; simp [jvalBeq]
  case case3 => intro a b; simp [jvalBeq]
  case case4 => intro a b; simp [jvalBeq]
  case case5 => intro xs ys ih; simp [jvalBeq, ih]
  case case6 => intro fs gs ih; simp [jvalBeq, ih]
  case case7 =>
    intro t x h1 h2 h3 h4 h5 h6
    cases t <;> cases x <;>
      first
        | exact absurd rfl (fun h => h1 h rfl)
        | simp_all [jvalBeq]
  case case8 => simp [jarrBeq]
  case case9 => intro x xs y ys ih1 ih2; simp [jarrBeq, ih1, ih2]
  case case10 =>
    intro t x h1 h2
    cases t with
    | nil =>
      cases x with
      | nil => exact (h1 rfl rfl).elim
      | cons y ys => simp [jarrBeq]
    | cons a as =>
      cases x with
      | nil => simp [jarrBeq]
      | cons y ys => exact (h2 a as y ys rfl rfl).elim
  case case11 => simp [jobjBeq]
  case case12 => intro k v fs l w gs ih1 ih2; simp [jobjBeq, ih1, ih2, and_assoc]
  case case13 =>
    intro t x h1 h2
    cases t with
    | nil =>
      cases x with
      | nil => exact (h1 rfl rfl).elim
      | cons q qs => simp [jobjBeq]
    | cons p ps =>
      cases x with
      | nil => simp [jobjBeq]
      | cons q qs =>
        obtain ⟨k, v⟩ := p
        obtain ⟨l, w⟩ := q
        exact (h2 k v ps l w qs rfl rfl).elim

theorem jval_beq_self (a : JVal) : (a == a) = true :=
  (jval_beq_true_iff a a).mpr rfl

theorem jval_beq_false_of_ne {a b : JVal} (h : a ≠ b) : (a == b) = false := by
  cases hb : a == b with
  | false => rfl
  | true => exact absurd ((jval_beq_true_iff a b).mp hb) h

theorem recordContinue_ok_state (s : PState) (stream record : JVal) (s' : PState)
    (h : recordContinue s stream record = Except.ok s') : s'.state = none := by
  unfold recordContinue at h
  split at h
  · split at h
    · simp only [Except.ok.injEq] at h
      rw [← h]
    · exact absurd h (by simp)
  · exact absurd h (by simp)

theorem recordStep_ok_state (validate : JVal → JVal → VResult) (s : PState) (o : Obj)
    (s' : PState) (h : recordStep validate s o = Except.ok s') : s'.state = none := by
  unfold recordStep at h
  split at h
  · exact absurd h (by simp)
  · split at h
    · split at h
      · exact absurd h (by simp)
      · split at h
        · exact absurd h (by simp)
        · split at h
          · exact recordContinue_ok_state _ _ _ _ h
          · exact recordContinue_ok_state _ _ _ _ h
          · exact absurd h (by simp)
    · exact absurd h (by simp)

theorem flushFiles_ok_state (s s' : PState) (h : flushFiles s = Except.ok s') :
    s'.state = s.state := by
  unfold flushFiles at h
  split at h
  · simp only [Except.ok.injEq] at h
    rw [← h]
  · split at h
    · exact absurd h (by simp)
    · simp only [Except.ok.injEq] at h
      rw [← h]

theorem stateStep_ok_state (s : PState) (o : Obj) (s' : PState)
    (h : stateStep s o = Except.ok s') : s'.state = alGet o "value" := by
  unfold stateStep at h
  split at h
  · exact absurd h (by simp)
  · rename_i v heq
    rw [heq]
    split at h
    · split at h
      · exact absurd h (by simp)
      · dsimp only at h
        split at h
        · rw [flushFiles_ok_state _ _ h]
        · simp only [Except.ok.injEq] at h
          rw [← h]
    · exact absurd h (by simp)

theorem schemaStep_ok_state (s : PState) (o : Obj) (s' : PState)
    (h : schemaStep s o = Except.ok s') : s'.state = s.state := by
  unfold schemaStep at h
  split at h
  · exact absurd h (by simp)
  · split at h
    · exact absurd h (by simp)
    · dsimp only at h
      split at h
      · exact absurd h (by simp)
      · simp only [Except.ok.injEq] at h
        rw [← h]

theorem step_ok_state (validate : JVal → JVal → VResult) (s : PState) (o : Obj)
    (s' : PState) (h : step validate s o = Except.ok s') :
    s'.state = ckptUpdate s.state o := by
  unfold step at h
  unfold ckptUpdate
  cases hty : alGet o "type" with
  | none =>
    rw [hty] at h
    exact absurd h (by simp)
  | some t =>
    rw [hty] at h
    dsimp only at h ⊢
    by_cases h1 : t = JVal.str "RECORD"
    · subst h1
      simp only [jval_beq_self, if_true] at h ⊢
      exact recordStep_ok_state _ _ _ _ h
    · simp only [jval_beq_false_of_ne h1, Bool.false_eq_true, if_false] at h ⊢
      by_cases h2 : t = JVal.str "STATE"
      · subst h2
        simp only [jval_beq_self, if_true] at h ⊢
        exact stateStep_ok_state _ _ _ h
      · simp only [jval_beq_false_of_ne h2, Bool.false_eq_true, if_false] at h ⊢
        by_cases h3 : t = JVal.str "SCHEMA"
        · subst h3
          simp only [jval_beq_self, if_true] at h
          exact schemaStep_ok_state _ _ _ h
        · simp only [jval_beq_false_of_ne h3, Bool.false_eq_true, if_false] at h
          by_cases h4 : t = JVal.str "ACTIVATE_VERSION"
          · subst h4
            simp only [jval_beq_self, if_true] at h
            simp only [Except.ok.injEq] at h
            rw [← h]
          · simp only [jval_beq_false_of_ne h4, Bool.false_eq_true, if_false] at h
            exact absurd h (by simp)

theorem persistLoop_ok_state (validate : JVal → JVal → VResult) :
    ∀ (msgs : List Obj) (s s' : PState),
      persistLoop validate s msgs = Except.ok s' →
      s'.state = msgs.foldl ckptUpdate s.state := by
  intro msgs
  induction msgs with
  | nil =>
    intro s s' h
    simp only [persistLoop, Except.ok.injEq] at h
    rw [← h]
    rfl
  | cons o rest ih =>
    intro s s' h
    simp only [persistLoop] at h
    cases hstep : step validate s o with
    | ok s1 =>
      rw [hstep] at h
      dsimp only at h
      have hrec := ih s1 s' h
      rw [step_ok_state validate s o s1 hstep] at hrec
      simpa [List.foldl_cons] using hrec
    | error e =>
      rw [hstep] at h
      exact absurd h (by simp)

/-- C4: a RECORD message naming a stream for which no SCHEMA message was
previously processed makes processing fail with the fatal "record before a
corresponding schema" protocol error, for any record content. -/
theorem c4_record_before_schema (validate : JVal → JVal → VResult) (s : PState)
    (o : Obj) (stream : JVal)
    (hty : alGet o "type" = some (JVal.str "RECORD"))
    (hstream : alGet o "stream" = some stream)
    (hns : alHas s.schemas stream = false) :
    step validate s o = Except.error (PError.noSchemaForStream stream, s) := by
  have hstep : step validate s o = recordStep validate s o := by
    unfold step
    rw [hty]
    rfl
  rw [hstep]
  unfold recordStep
  rw [hstream]
  dsimp only
  simp [hns]

/-- Witness for C4: a RECORD for stream "users" against an empty registry. -/
theorem c4_witness :
    step acceptAll (initState false [] [])
        (recordMsg "users" (JVal.obj [("id", JVal.num 1)]))
      = Except.error (PError.noSchemaForStream (JVal.str "users"), initState false [] []) :=
  c4_record_before_schema acceptAll (initState false [] [])
    (recordMsg "users" (JVal.obj [("id", JVal.num 1)])) (JVal.str "users") rfl rfl rfl

/-- C9: a message whose `type` field is absent, or present with a value other
than RECORD, STATE, SCHEMA or ACTIVATE_VERSION, raises a fatal error. -/
theorem c9_unknown_type_fatal (validate : JVal → JVal → VResult) (s : PState) (o : Obj) :
    (alGet o "type" = none → step validate s o = Except.error (PError.missingType, s))
    ∧ (∀ t : JVal, alGet o "type" = some t →
        t ≠ JVal.str "RECORD" → t ≠ JVal.str "STATE" → t ≠ JVal.str "SCHEMA" →
        t ≠ JVal.str "ACTIVATE_VERSION" →
        step validate s o = Except.error (PError.unknownType t, s)) := by
  constructor
  · intro h
    unfold step
    rw [h]
  · intro t ht h1 h2 h3 h4
    unfold step
    rw [ht]
    dsimp only
    simp [jval_beq_false_of_ne h1, jval_beq_false_of_ne h2, jval_beq_false_of_ne h3,
      jval_beq_false_of_ne h4]

/-- Witness for C9: a message with no `type` key, and one with type "UPSERT". -/
theorem c9_witness :
    step acceptAll (initState false [] []) [("foo", JVal.null)]
        = Except.error (PError.missingType, initState false [] [])
    ∧ step acceptAll (initState false [] []) [("type", JVal.str "UPSERT")]
        = Except.error (PError.unknownType (JVal.str "UPSERT"), initState false [] []) :=
  ⟨(c9_unknown_type_fatal acceptAll (initState false [] []) [("foo", JVal.null)]).1 rfl,
   (c9_unknown_type_fatal acceptAll (initState false [] [])
      [("type", JVal.str "UPSERT")]).2 (JVal.str "UPSERT") rfl
      (by simp) (by simp) (by simp) (by simp)⟩

/-- C10: a STATE message unconditionally reads `o['value']` and then
`state['currently_syncing']`; if either key is absent the run aborts with a
key-lookup error, for every state `s` — in particular even when the staging
directory does not exist and no flush could be triggered. -/
theorem c10_state_reads (s : PState) (o : Obj) (validate : JVal → JVal → VResult)
    (hty : alGet o "type" = some (JVal.str "STATE")) :
    (alGet o "value" = none →
        step validate s o = Except.error (PError.keyError "value", s))
    ∧ (∀ fields : Obj, alGet o "value" = some (JVal.obj fields) →
        alGet fields "currently_syncing" = none →
        step validate s o = Except.error (PError.keyError "currently_syncing",
          { s with state := some (JVal.obj fields) })) := by
  have hstep : step validate s o = stateStep s o := by
    unfold step
    rw [hty]
    rfl
  constructor
  · intro h
    rw [hstep]
    unfold stateStep
    rw [h]
  · intro fields hv hcs
    rw [hstep]
    unfold stateStep
    rw [hv]
    dsimp only
    rw [hcs]

/-- Witness for C10: a STATE with no `value`, and a STATE whose value lacks
`currently_syncing`, both against a state with no staging directory. -/
theorem c10_witness :
    step acceptAll (initState false [] []) [("type", JVal.str "STATE")]
        = Except.error (PError.keyError "value", initState false [] [])
    ∧ step acceptAll (initState false [] []) (stateMsg (JVal.obj [("foo", JVal.null)]))
        = Except.error (PError.keyError "currently_syncing",
            { initState false [] [] with state := some (JVal.obj [("foo", JVal.null)]) }) :=
  ⟨(c10_state_reads (initState false [] []) [("type", JVal.str "STATE")] acceptAll rfl).1 rfl,
   (c10_state_reads (initState false [] []) (stateMsg (JVal.obj [("foo", JVal.null)]))
      acceptAll rfl).2 [("foo", JVal.null)] rfl rfl⟩

/-- C7: a STATE message whose checkpoint has a truthy `currently_syncing`
never promotes anything: the step succeeds having only replaced the tracked
checkpoint — the staged files and the blob container are unchanged,
regardless of staging contents. -/
theorem c7_syncing_no_flush (validate : JVal → JVal → VResult) (s : PState) (o : Obj)
    (fields : Obj) (cs : JVal)
    (hty : alGet o "type" = some (JVal.str "STATE"))
    (hv : alGet o "value" = some (JVal.obj fields))
    (hcs : alGet fields "currently_syncing" = some cs)
    (htruthy : pyTruthy cs = true) :
    step validate s o = Except.ok { s with state := some (JVal.obj fields) }
    ∧ ({ s with state := some (JVal.obj fields) } : PState).files = s.files
    ∧ ({ s with state := some (JVal.obj fields) } : PState).blobs = s.blobs := by
  refine ⟨?_, rfl, rfl⟩
  have hstep : step validate s o = stateStep s o := by
    unfold step
    rw [hty]
    rfl
  rw [hstep]
  unfold stateStep
  rw [hv]
  dsimp only
  rw [hcs]
  dsimp only
  simp [htruthy]

/-- Witness for C7: a truthy-syncing STATE against a non-empty staging area. -/
theorem c7_witness :
    step acceptAll (initState true [("x.csv", [[JVal.str "a"]])] [])
        (stateMsg (syncFlag true))
      = Except.ok { initState true [("x.csv", [[JVal.str "a"]])] [] with
                    state := some (JVal.obj [("currently_syncing", JVal.bool true)]) }
    ∧ ({ initState true [("x.csv", [[JVal.str "a"]])] [] with
         state := some (JVal.obj [("currently_syncing", JVal.bool true)]) } : PState).files
        = (initState true [("x.csv", [[JVal.str "a"]])] []).files
    ∧ ({ initState true [("x.csv", [[JVal.str "a"]])] [] with
         state := some (JVal.obj [("currently_syncing", JVal.bool true)]) } : PState).blobs
        = (initState true [("x.csv", [[JVal.str "a"]])] []).blobs :=
  c7_syncing_no_flush acceptAll (initState true [("x.csv", [[JVal.str "a"]])] [])
    (stateMsg (syncFlag true)) [("currently_syncing", JVal.bool true)]
    (JVal.bool true) rfl rfl rfl rfl

/-- C1 counterexample: with a validator that reports a `ValidationError`
whose message does not mention the decimal-precision pattern, the run is NOT
aborted — the record is processed, nothing is logged, and a later SCHEMA
message is still handled. This refutes "every other schema-validation failure
is fatal and aborts the run before further messages are processed". -/
theorem c1_counterexample :
    (persistLoop (fun _ _ => VResult.validationError "'abc' is too long")
        (initState false [] [])
        [schemaMsg "users" (JVal.obj []) (JVal.arr []),
         recordMsg "users" (JVal.obj [("id", JVal.num 1)]),
         schemaMsg "other" (JVal.obj []) (JVal.arr [])]).map
      (fun st => (st.schemas, st.errorLog))
      = Except.ok ([(JVal.str "users", JVal.obj []), (JVal.str "other", JVal.obj [])],
          []) := rfl

/-- C1 (amended): when the stored validator raises a `ValidationError`, the
failure is suppressed and processing of the record continues — with a log
entry exactly when the message contains "is not a multiple of 0.01"; only an
exception of any other class aborts the run. -/
theorem c1_validation_suppressed (validate : JVal → JVal → VResult) (s : PState)
    (o : Obj) (stream record vschema : JVal)
    (hty : alGet o "type" = some (JVal.str "RECORD"))
    (hstream : alGet o "stream" = some stream)
    (hhas : alHas s.schemas stream = true)
    (hrec : alGet o "record" = some record)
    (hvld : alGet s.validators stream = some vschema) :
    (∀ msg : String, validate vschema record = VResult.validationError msg →
        step validate s o =
          recordContinue
            (if pyIn "is not a multiple of 0.01" msg then
              { s with errorLog := s.errorLog ++ ["Validation error:" ++ msg] }
            else s) stream record)
    ∧ (validate vschema record = VResult.otherError →
        step validate s o = Except.error (PError.validatorError, s)) := by
  have hstep : step validate s o = recordStep validate s o := by
    unfold step
    rw [hty]
    rfl
  constructor
  · intro msg hv
    rw [hstep]
    unfold recordStep
    rw [hstream]
    dsimp only
    simp only [hhas, if_true]
    rw [hrec]
    dsimp only
    rw [hvld]
    dsimp only
    rw [hv]
  · intro hv
    rw [hstep]
    unfold recordStep
    rw [hstream]
    dsimp only
    simp only [hhas, if_true]
    rw [hrec]
    dsimp only
    rw [hvld]
    dsimp only
    rw [hv]

/-- Witness for C1: a precision-pattern `ValidationError` leads into
`recordContinue` from the logged state. -/
theorem c1_witness :
    step (fun _ _ => VResult.validationError "5.005 is not a multiple of 0.01")
        { initState false [] [] with
          schemas := [(JVal.str "u", JVal.obj [])],
          validators := [(JVal.str "u", JVal.obj [])] }
        (recordMsg "u" (JVal.obj [("p", JVal.num 1)]))
      = recordContinue
          (if pyIn "is not a multiple of 0.01" "5.005 is not a multiple of 0.01" then
            { { initState false [] [] with
                schemas := [(JVal.str "u", JVal.obj [])],
                validators := [(JVal.str "u", JVal.obj [])] } with
              errorLog := [] ++ ["Validation error:" ++ "5.005 is not a multiple of 0.01"] }
          else
            { initState false [] [] with
              schemas := [(JVal.str "u", JVal.obj [])],
              validators := [(JVal.str "u", JVal.obj [])] })
          (JVal.str "u") (JVal.obj [("p", JVal.num 1)]) :=
  (c1_validation_suppressed
      (fun _ _ => VResult.validationError "5.005 is not a multiple of 0.01")
      { initState false [] [] with
        schemas := [(JVal.str "u", JVal.obj [])],
        validators := [(JVal.str "u", JVal.obj [])] }
      (recordMsg "u" (JVal.obj [("p", JVal.num 1)]))
      (JVal.str "u") (JVal.obj [("p", JVal.num 1)]) (JVal.obj [])
      rfl rfl rfl rfl rfl).1 "5.005 is not a multiple of 0.01" rfl

/-- C2 counterexample: after SCHEMA, STATE (truthy syncing), RECORD, the loop
returns `None` — and so nothing is emitted — although a STATE message carrying
a non-`None` checkpoint was processed: the RECORD branch reset the slot. -/
theorem c2_counterexample :
    persist_lines acceptAll false [] []
      [schemaMsg "users" (JVal.obj []) (JVal.arr []),
       stateMsg (syncFlag true),
       recordMsg "users" (JVal.obj [("id", JVal.num 1)])]
      = Except.ok none
    ∧ emit_state none = none
    ∧ some (syncFlag true) ≠ (none : Option JVal) :=
  ⟨rfl, rfl, by simp⟩

/-- C2 (amended): for a run that finishes without an exception, the returned
checkpoint is the fold of `ckptUpdate` over the input — each STATE message
sets it to that message's `value`, each RECORD message resets it to `None`,
everything else leaves it.  It therefore equals the last STATE's value only
when no RECORD was processed afterwards, and is `None` when no STATE was seen
at all. -/
theorem c2_final_checkpoint (validate : JVal → JVal → VResult) (dirExists : Bool)
    (files : List (String × List Row)) (blobs : List (String × (String × List Row)))
    (msgs : List Obj) (c : Option JVal)
    (h : persist_lines validate dirExists files blobs msgs = Except.ok c) :
    c = msgs.foldl ckptUpdate none := by
  unfold persist_lines at h
  cases hrun : persistLoop validate (initState dirExists files blobs) msgs with
  | ok s' =>
    rw [hrun] at h
    simp only [Except.map, Except.ok.injEq] at h
    rw [← h]
    exact persistLoop_ok_state validate msgs (initState dirExists files blobs) s' hrun
  | error e =>
    rw [hrun] at h
    simp [Except.map] at h

/-- Witness for C2: a single falsy-syncing STATE with no staging directory. -/
theorem c2_witness :
    some (syncFlag false) = [stateMsg (syncFlag false)].foldl ckptUpdate none :=
  c2_final_checkpoint acceptAll false [] [] [stateMsg (syncFlag false)]
    (some (syncFlag false)) rfl

/-- C3 (code bug): two streams "a" and "b" are staged, then a falsy-syncing
STATE flushes.  The staging area is emptied, but both files were uploaded
under the single `filename` local left by the LAST RECORD branch ("b.csv"):
the container ends up with only a blob named "b.csv" holding stream b's rows,
and stream a's artifact (claimed to be uploaded "under a name derived from
its logical stream") does not exist. -/
theorem c3_flush_uses_last_filename :
    (persistLoop acceptAll (initState false [] [])
        [schemaMsg "a" (JVal.obj []) (JVal.arr []),
         schemaMsg "b" (JVal.obj []) (JVal.arr []),
         recordMsg "a" (JVal.obj [("x", JVal.num 1)]),
         recordMsg "b" (JVal.obj [("y", JVal.num 2)])]).map
        (fun st => st.files.map Prod.fst)
      = Except.ok ["a.csv", "b.csv"]
    ∧ (persistLoop acceptAll (initState false [] [])
        [schemaMsg "a" (JVal.obj []) (JVal.arr []),
         schemaMsg "b" (JVal.obj []) (JVal.arr []),
         recordMsg "a" (JVal.obj [("x", JVal.num 1)]),
         recordMsg "b" (JVal.obj [("y", JVal.num 2)]),
         stateMsg (syncFlag false)]).map (fun st => (st.files, st.blobs))
      = Except.ok ([],
          [("b.csv", ("application/CSV", [[JVal.str "y"], [JVal.num 2]]))]) :=
  ⟨rfl, rfl⟩

/-- C5 counterexample: after two RECORDs for stream "s" whose raw records
carry the same keys in different orders, the staged file's second data row is
`[3, 4]` — the values in the SECOND record's own key order (b, a) — not
`[4, 3]`, the values in the fixed key order (a, b) established at
header-write time. This refutes "every subsequent RECORD appends the raw
record's values in the same fixed key order established at header-write
time". -/
theorem c5_counterexample :
    (persistLoop acceptAll (initState false [] [])
        [schemaMsg "s" (JVal.obj []) (JVal.arr []),
         recordMsg "s" (JVal.obj [("a", JVal.num 1), ("b", JVal.num 2)]),
         recordMsg "s" (JVal.obj [("b", JVal.num 3), ("a", JVal.num 4)])]).map
        (fun st => st.files)
      = Except.ok [("s.csv",
          [[JVal.str "a", JVal.str "b"],
           [JVal.num 1, JVal.num 2],
           [JVal.num 3, JVal.num 4]])]
    ∧ [JVal.num 3, JVal.num 4] ≠ [JVal.num 4, JVal.num 3] :=
  ⟨rfl, by simp⟩

/-- C5 (amended): the first RECORD for a stream since the last flush creates
the staging file with a header row from the raw record's key order and then
appends that record's values; every subsequent RECORD appends its values in
that RECORD's OWN key iteration order (not the order established at
header-write time), always at the end of the file — so row order equals
arrival order. -/
theorem c5_append_in_record_order (validate : JVal → JVal → VResult) (s : PState)
    (o : Obj) (sname : String) (fields : Obj) (vschema : JVal)
    (hty : alGet o "type" = some (JVal.str "RECORD"))
    (hstream : alGet o "stream" = some (JVal.str sname))
    (hhas : alHas s.schemas (JVal.str sname) = true)
    (hrec : alGet o "record" = some (JVal.obj fields))
    (hvld : alGet s.validators (JVal.str sname) = some vschema)
    (hok : validate vschema (JVal.obj fields) = VResult.ok) :
    (alHas s.files (sname ++ ".csv") = false →
      (step validate s o).map (fun st => alGet st.files (sname ++ ".csv"))
        = Except.ok (some [fields.map (fun kv => JVal.str kv.1),
                           fields.map (fun kv => kv.2)]))
    ∧ (∀ rows, alGet s.files (sname ++ ".csv") = some rows →
      (step validate s o).map (fun st => alGet st.files (sname ++ ".csv"))
        = Except.ok (some (rows ++ [fields.map (fun kv => kv.2)]))) := by
  have hrc : step validate s o
      = recordContinue s (JVal.str sname) (JVal.obj fields) := by
    have hstep : step validate s o = recordStep validate s o := by
      unfold step
      rw [hty]
      rfl
    rw [hstep]
    unfold recordStep
    rw [hstream]
    dsimp only
    simp only [hhas, if_true]
    rw [hrec]
    dsimp only
    rw [hvld]
    dsimp only
    rw [hok]
  constructor
  · intro hnew
    rw [hrc]
    unfold recordContinue
    dsimp only
    simp [hnew, alGet_alSet, Except.map]
  · intro rows hrows
    rw [hrc]
    unfold recordContinue
    dsimp only
    have hhasf : alHas s.files (sname ++ ".csv") = true := by
      simp [alHas, hrows]
    simp [hhasf, hrows, alGet_alSet, Except.map]

/-- Witness for C5: a first RECORD creates header plus first row; a second
RECORD appends at the end. -/
theorem c5_witness :
    (step acceptAll
        { initState false [] [] with
          schemas := [(JVal.str "t", JVal.obj [])],
          validators := [(JVal.str "t", JVal.obj [])] }
        (recordMsg "t" (JVal.obj [("a", JVal.num 1)]))).map
      (fun st => alGet st.files ("t" ++ ".csv"))
      = Except.ok (some [[JVal.str "a"], [JVal.num 1]])
    ∧ (step acceptAll
        { initState false [("t.csv", [[JVal.str "a"], [JVal.num 1]])] [] with
          schemas := [(JVal.str "t", JVal.obj [])],
          validators := [(JVal.str "t", JVal.obj [])] }
        (recordMsg "t" (JVal.obj [("a", JVal.num 2)]))).map
      (fun st => alGet st.files ("t" ++ ".csv"))
      = Except.ok (some ([[JVal.str "a"], [JVal.num 1]] ++ [[JVal.num 2]])) :=
  ⟨(c5_append_in_record_order acceptAll
      { initState false [] [] with
        schemas := [(JVal.str "t", JVal.obj [])],
        validators := [(JVal.str "t", JVal.obj [])] }
      (recordMsg "t" (JVal.obj [("a", JVal.num 1)]))
      "t" [("a", JVal.num 1)] (JVal.obj [])
      rfl rfl rfl rfl rfl rfl).1 rfl,
   (c5_append_in_record_order acceptAll
      { initState false [("t.csv", [[JVal.str "a"], [JVal.num 1]])] [] with
        schemas := [(JVal.str "t", JVal.obj [])],
        validators := [(JVal.str "t", JVal.obj [])] }
      (recordMsg "t" (JVal.obj [("a", JVal.num 2)]))
      "t" [("a", JVal.num 2)] (JVal.obj [])
      rfl rfl rfl rfl rfl rfl).2 [[JVal.str "a"], [JVal.num 1]] rfl⟩

/-- C6 counterexample: a SCHEMA message without `key_properties` raises, but
the stream registry is NOT left unchanged — `schemas` and `validators` have
already been updated for the stream when the exception fires; only
`key_properties` is untouched. -/
theorem c6_counterexample :
    step acceptAll (initState false [] [])
        [("type", JVal.str "SCHEMA"), ("stream", JVal.str "s"), ("schema", JVal.obj [])]
      = Except.error (PError.missingKeyProperties,
          { initState false [] [] with
            schemas := [(JVal.str "s", JVal.obj [])],
            validators := [(JVal.str "s", JVal.obj [])] })
    ∧ [(JVal.str "s", JVal.obj [])] ≠ ([] : List (JVal × JVal)) :=
  ⟨rfl, by simp⟩

/-- C6 (amended): a SCHEMA message stores the schema and its validator for
the stream FIRST; only then is `key_properties` checked — if it is absent the
missing-field error fires with `schemas` and `validators` already updated and
`key_properties` unchanged, and if it is present all three registries are
updated. -/
theorem c6_schema_updates_before_keyprops (validate : JVal → JVal → VResult)
    (s : PState) (o : Obj) (stream schema : JVal)
    (hty : alGet o "type" = some (JVal.str "SCHEMA"))
    (hstream : alGet o "stream" = some stream)
    (hschema : alGet o "schema" = some schema) :
    (alGet o "key_properties" = none →
      step validate s o = Except.error (PError.missingKeyProperties,
        { s with schemas := alSet s.schemas stream schema,
                 validators := alSet s.validators stream schema }))
    ∧ (∀ kp, alGet o "key_properties" = some kp →
      step validate s o = Except.ok
        { s with schemas := alSet s.schemas stream schema,
                 validators := alSet s.validators stream schema,
                 key_properties := alSet s.key_properties stream kp }) := by
  have hstep : step validate s o = schemaStep s o := by
    unfold step
    rw [hty]
    rfl
  constructor
  · intro h
    rw [hstep]
    unfold schemaStep
    rw [hstream]
    dsimp only
    rw [hschema]
    dsimp only
    rw [h]
  · intro kp hkp
    rw [hstep]
    unfold schemaStep
    rw [hstream]
    dsimp only
    rw [hschema]
    dsimp only
    rw [hkp]

/-- Witness for C6: a complete SCHEMA message updates all three registries. -/
theorem c6_witness :
    step acceptAll (initState false [] []) (schemaMsg "s" (JVal.obj []) (JVal.arr []))
      = Except.ok { initState false [] [] with
          schemas := alSet (initState false [] []).schemas (JVal.str "s") (JVal.obj []),
          validators := alSet (initState false [] []).validators (JVal.str "s") (JVal.obj []),
          key_properties :=
            alSet (initState false [] []).key_properties (JVal.str "s") (JVal.arr []) } :=
  (c6_schema_updates_before_keyprops acceptAll (initState false [] [])
      (schemaMsg "s" (JVal.obj []) (JVal.arr [])) (JVal.str "s") (JVal.obj [])
      rfl rfl rfl).2 (JVal.arr []) rfl

/-- C8: `flatten` is idempotent (re-flattening any flatten output is the
identity), acts pointwise on records with no nested mapping — converting
list leaves to their Python string representation and passing every other
scalar through unchanged — returns a flat all-scalar record unchanged, and
joins composite keys with the fixed separator `__` in depth-first order
matching the input's iteration order (concrete nested instance). Determinism
is inherent: the embedding is a pure function of the input record. -/
theorem c8_flatten_props :
    (∀ d : Obj, flatten (flatten d) = flatten d)
    ∧ (∀ d : Obj, d.all (fun kv => !isMapping kv.2) = true → (d.map Prod.fst).Nodup →
        flatten d = d.map (fun kv => (kv.1, convLeaf kv.2)))
    ∧ (∀ d : Obj, d.all (fun kv => isScalar kv.2) = true → (d.map Prod.fst).Nodup →
        flatten d = d)
    ∧ flatten [("a", JVal.obj [("b", JVal.obj [("c", JVal.num 1)]), ("d", JVal.num 2)]),
               ("e", JVal.arr [JVal.num 3, JVal.null])]
        = [("a__b__c", JVal.num 1), ("a__d", JVal.num 2),
           ("e", JVal.str "[3, None]")] := by
  refine ⟨flatten_idem, flatten_flat, ?_, rfl⟩
  intro d h1 h2
  rw [flatten_flat d (scalar_all_not_mapping d h1) h2]
  exact map_convLeaf_id d h1

/-- Witness for C8: idempotence and flat-record identity at concrete
records. -/
theorem c8_witness :
    flatten (flatten [("k", JVal.num 7)]) = flatten [("k", JVal.num 7)]
    ∧ flatten [("k", JVal.num 7), ("l", JVal.str "x")]
        = [("k", JVal.num 7), ("l", JVal.str "x")] :=
  ⟨c8_flatten_props.1 [("k", JVal.num 7)],
   c8_flatten_props.2.2.1 [("k", JVal.num 7), ("l", JVal.str "x")] rfl (by decide)⟩
